import Mathlib

/-!
Verification development for the SafeMail phishing-email classifier
(`src/js/safemail.js`).

The classifier is embedded shallowly:

* JS strings are Lean `String`s; the regex catalog is embedded through a
  small executable matcher (`Pat`, `runPat`, `rtest`) covering exactly the
  constructs the source patterns use: literals, character classes, `\s*`,
  one-or-more classes, bounded repetition `{1,3}`, optional groups,
  alternation, word boundary `\b` and end-of-input `$`.
* JS numbers flowing through the model scorer are modelled by `JNum`:
  a rational together with the IEEE special values NaN and the two
  infinities (`Number` coercions of the JSON fields are taken as already
  applied).  `Math.exp` on binary64 is itself an approximation of the real
  exponential; here a fixed rational approximation stands in for it.  No
  claim below depends on the numeric value of the exponential: the scorer
  clamps its confidence, and every claim about the model path is invariant
  under the value of `sigmoid` on non-NaN input.
* `toLowerCase` is modelled per `Char.toLower` (ASCII case folding), and
  `\s` by the ASCII whitespace set; the source data is ASCII throughout.
-/

/-- JS `\w` character class: ASCII letters, digits and underscore. -/
def isWordChar (c : Char) : Bool := c.isAlphanum || c = '_'

/-- JS `\s` character class (ASCII part). -/
def isSpaceChar (c : Char) : Bool :=
  c = ' ' || c = '\t' || c = '\n' || c = '\r' || c = '\x0b' || c = '\x0c'

/-- JS `\d` character class. -/
def isDigitChar (c : Char) : Bool := c.isDigit

/-- Lower-cased character list of a string (JS `toLowerCase`, ASCII). -/
def lowerChars (s : String) : List Char := s.toList.map Char.toLower

/-- Decidable prefix test on character lists. -/
def startsWithL : List Char → List Char → Bool
  | [], _ => true
  | _ :: _, [] => false
  | c :: cs, d :: ds => c = d && startsWithL cs ds

/-- Decidable substring test: does `needle` occur anywhere in `l`? -/
def containsSub : List Char → List Char → Bool
  | needle, [] => startsWithL needle []
  | needle, c :: rest => startsWithL needle (c :: rest) || containsSub needle rest

/-- JS `String.prototype.trim` (ASCII whitespace). -/
def jsTrim (s : String) : String :=
  String.mk (((s.toList.dropWhile isSpaceChar).reverse.dropWhile isSpaceChar).reverse)

/-- Split a character list on runs of whitespace (JS `split(/\s+/)` up to
the empty fragments, which the source filters out). -/
def splitWs (cs : List Char) : List (List Char) :=
  cs.foldr
    (fun c acc =>
      if isSpaceChar c then [] :: acc
      else
        match acc with
        | [] => [[c]]
        | t :: ts => (c :: t) :: ts)
    []

/-- Tokenizer of `safemail.js` (`tokenize`): lower-case, replace every
character that is neither a word character nor whitespace by a space,
split on whitespace, drop empty tokens. -/
def tokenize (text : String) : List String :=
  ((splitWs ((lowerChars text).map
      (fun c => if isWordChar c || isSpaceChar c then c else ' '))).filter
    (fun t => !t.isEmpty)).map String.mk

/-- Suffix test on character lists (JS `slice(-n) === suf`). -/
def endsL (l suf : List Char) : Bool := startsWithL suf.reverse l.reverse

/-- Drop the last `n` characters (JS `slice(0, -n)`). -/
def dropLastN (cs : List Char) (n : Nat) : List Char := (cs.reverse.drop n).reverse

/-- Stemmer of `safemail.js` (`stem`), on character lists. -/
def stemChars (cs : List Char) : List Char :=
  if cs.length < 4 then cs
  else if 5 < cs.length ∧ endsL cs ("ing".toList) = true then dropLastN cs 3
  else if 4 < cs.length ∧ endsL cs ("ed".toList) = true then dropLastN cs 2
  else if 5 < cs.length ∧ endsL cs ("ly".toList) = true then dropLastN cs 2
  else cs

/-- Stemmer of `safemail.js` (`stem`). -/
def stem (w : String) : String := String.mk (stemChars w.toList)

/-- JS numbers as they flow through the model scorer: a rational, NaN, or
an infinity. -/
inductive JNum where
  | num (q : ℚ)
  | nan
  | inf
  | ninf
deriving DecidableEq

/-- NaN test (JS `x !== x`). -/
def JNum.isNaN : JNum → Bool
  | JNum.nan => true
  | _ => false

/-- IEEE-style addition on `JNum`. -/
def JNum.add : JNum → JNum → JNum
  | JNum.nan, _ => JNum.nan
  | _, JNum.nan => JNum.nan
  | JNum.inf, JNum.ninf => JNum.nan
  | JNum.ninf, JNum.inf => JNum.nan
  | JNum.inf, _ => JNum.inf
  | _, JNum.inf => JNum.inf
  | JNum.ninf, _ => JNum.ninf
  | _, JNum.ninf => JNum.ninf
  | JNum.num a, JNum.num b => JNum.num (a + b)

/-- IEEE-style multiplication on `JNum`. -/
def JNum.mul : JNum → JNum → JNum
  | JNum.nan, _ => JNum.nan
  | _, JNum.nan => JNum.nan
  | JNum.num a, JNum.num b => JNum.num (a * b)
  | JNum.inf, JNum.num b => if 0 < b then JNum.inf else if b < 0 then JNum.ninf else JNum.nan
  | JNum.ninf, JNum.num b => if 0 < b then JNum.ninf else if b < 0 then JNum.inf else JNum.nan
  | JNum.num a, JNum.inf => if 0 < a then JNum.inf else if a < 0 then JNum.ninf else JNum.nan
  | JNum.num a, JNum.ninf => if 0 < a then JNum.ninf else if a < 0 then JNum.inf else JNum.nan
  | JNum.inf, JNum.inf => JNum.inf
  | JNum.inf, JNum.ninf => JNum.ninf
  | JNum.ninf, JNum.inf => JNum.ninf
  | JNum.ninf, JNum.ninf => JNum.inf

/-- Truncated exponential series: rational stand-in for `Math.exp` on
nonnegative arguments (binary64 `Math.exp` is itself an approximation;
no claim depends on the value). -/
def expT (x : ℚ) : ℚ :=
  (List.range 13).foldl (fun acc k => acc + x ^ k / (Nat.factorial k : ℚ)) 0

/-- Rational stand-in for `Math.exp`. -/
def jexp (x : ℚ) : ℚ := if x < 0 then 1 / expT (-x) else expT x

/-- Numerically-stable logistic function of `safemail.js` (`sigmoid`):
NaN maps to 1/2; the two branches follow the sign of the argument, and the
infinities are the limits the JS code computes for them. -/
def sigmoid : JNum → ℚ
  | JNum.nan => 1 / 2
  | JNum.inf => 1
  | JNum.ninf => 0
  | JNum.num x => if 0 ≤ x then 1 / (1 + jexp (-x)) else jexp x / (1 + jexp x)

/-- JS `Math.round` (round half toward positive infinity). -/
def jsRound (q : ℚ) : ℤ := ⌊q + 1 / 2⌋

/-- JS `Math.round(q * 100) / 100`. -/
def roundTo2 (q : ℚ) : ℚ := (jsRound (q * 100) : ℚ) / 100

/-- Analysis result record (`{prediction, confidence, explanation}`). -/
structure AnalysisResult where
  prediction : String
  confidence : ℚ
  explanation : String
deriving DecidableEq

/-- The loaded model file `{vocab, coef, intercept}`; `vocab`/`coef` are
`none` when the field is missing (JS falsy check), and `intercept` holds
the value of `Number(model.intercept)`. -/
structure JSModel where
  vocab : Option (List String)
  coef : Option (List JNum)
  intercept : JNum

/-- First index of `w` in `v` (JS `Array.prototype.indexOf`). -/
def indexOfAux : List String → String → Nat → Option Nat
  | [], _, _ => none
  | x :: xs, w, i => if x = w then some i else indexOfAux xs w (i + 1)

/-- First index of `w` in `v`, or `none`. -/
def indexOfStr (v : List String) (w : String) : Option Nat := indexOfAux v w 0

/-- Increment slot `i` of the count vector (JS `counts[idx] += 1`). -/
def bump (counts : List Nat) (i : Nat) : List Nat :=
  counts.set i (counts.getD i 0 + 1)

/-- Per-vocabulary-index token counts of `predictWithModel`: exact lookup
first, then lookup of the stem when it differs from the token. -/
def countsFor (vocab : List String) (words : List String) : List Nat :=
  words.foldl
    (fun counts w =>
      match indexOfStr vocab w with
      | some i => bump counts i
      | none =>
        let s := stem w
        if s = w then counts
        else
          match indexOfStr vocab s with
          | some i => bump counts i
          | none => counts)
    (vocab.map (fun _ => 0))

/-- Reading `counts[j]` in JS: out of range gives `undefined`, whose
product with a number is NaN. -/
def natToJNum : Option Nat → JNum
  | none => JNum.nan
  | some n => JNum.num (n : ℚ)

/-- Linear score `intercept + sum(coef[j] * counts[j])` over the indices
of `coef`, as the JS loop computes it. -/
def linScore (intercept : JNum) (coef : List JNum) (counts : List Nat) : JNum :=
  (List.range coef.length).foldl
    (fun acc j => JNum.add acc (JNum.mul (coef.getD j JNum.nan) (natToJNum (counts.get? j))))
    intercept

/-- Model prediction: `probPhishing >= 0.5 ? 'Phishing' : 'Safe'`. -/
def mvPrediction (probPhishing : ℚ) : String :=
  if 1 / 2 ≤ probPhishing then "Phishing" else "Safe"

/-- Model confidence before clamping: the probability mass of the
predicted label (`prediction === 'Phishing' ? prob : 1 - prob`). -/
def mvConfidence0 (probPhishing : ℚ) : ℚ :=
  if mvPrediction probPhishing = "Phishing" then probPhishing else 1 - probPhishing

/-- Success-path result construction of `predictWithModel`, given the
probability the sigmoid returned: predict, take the predicted label's
mass, clamp to [0,1], round to two decimals. -/
def modelVerdict (probPhishing : ℚ) : AnalysisResult :=
  { prediction := mvPrediction probPhishing
    confidence := roundTo2 (max 0 (min 1 (mvConfidence0 probPhishing)))
    explanation :=
      "Local ML model (logistic regression) classified this text based on word patterns. " ++
        (if mvPrediction probPhishing = "Phishing" then
          "Consider verifying the sender and avoiding links or sharing data."
        else
          "No strong phishing signals; still verify important requests through official channels.") }

/-- Model scorer of `safemail.js` (`predictWithModel`): `none` when the
model is absent, a field is missing, the intercept is NaN, or the linear
score is NaN; otherwise the sigmoid verdict.  (The `confidence !== confidence`
repair in the source cannot fire here: rationals have no NaN.) -/
def predictWithModel (m : Option JSModel) (text : String) : Option AnalysisResult :=
  match m with
  | none => none
  | some mm =>
    match mm.vocab, mm.coef with
    | none, _ => none
    | some _, none => none
    | some vocab, some coef =>
      if mm.intercept.isNaN = true then none
      else
        let score := linScore mm.intercept coef (countsFor vocab (tokenize text))
        if score.isNaN = true then none
        else some (modelVerdict (sigmoid score))

/-- Pattern AST covering the regex constructs used by `safemail.js`. -/
inductive Pat where
  | eps
  | wb
  | eos
  | cls (p : Char → Bool)
  | lit (s : String)
  | seq (a b : Pat)
  | alt (a b : Pat)
  | opt (a : Pat)
  | star (p : Char → Bool)
  | plus (p : Char → Bool)
  | rep (p : Char → Bool) (lo hi : Nat)

/-- Match a literal: consume its characters, tracking the last consumed
character (needed for word boundaries). -/
def litM : List Char → Option Char → List Char → Option (Option Char × List Char)
  | [], prev, rest => some (prev, rest)
  | _ :: _, _, [] => none
  | c :: cs, _, d :: ds => if c = d then litM cs (some d) ds else none

/-- All states reachable by consuming zero or more characters of a class. -/
def starM (p : Char → Bool) : Option Char → List Char → List (Option Char × List Char)
  | prev, [] => [(prev, [])]
  | prev, c :: cs => (prev, c :: cs) :: (if p c then starM p (some c) cs else [])

/-- All states reachable by consuming between `lo` and `hi` characters of a
class. -/
def repM (p : Char → Bool) : Nat → Nat → Option Char → List Char → List (Option Char × List Char)
  | lo, 0, prev, rest => if lo = 0 then [(prev, rest)] else []
  | lo, _ + 1, prev, [] => if lo = 0 then [(prev, [])] else []
  | lo, h + 1, prev, c :: cs =>
    (if lo = 0 then [(prev, c :: cs)] else []) ++
      (if p c then repM p (lo - 1) h (some c) cs else [])

/-- Wordness of an optional character (string edges count as non-word). -/
def optIsWord : Option Char → Bool
  | none => false
  | some c => isWordChar c

/-- JS `\b`: the word-character status changes between the previous
character and the next one. -/
def isBoundary (prev : Option Char) (rest : List Char) : Bool :=
  optIsWord prev != optIsWord rest.head?

/-- All states (last consumed character, remaining input) reachable by
matching `p` at the current position. -/
def runPat : Pat → Option Char → List Char → List (Option Char × List Char)
  | Pat.eps, prev, rest => [(prev, rest)]
  | Pat.wb, prev, rest => if isBoundary prev rest then [(prev, rest)] else []
  | Pat.eos, prev, rest =>
    match rest with
    | [] => [(prev, [])]
    | _ :: _ => []
  | Pat.cls p, _, rest =>
    match rest with
    | [] => []
    | c :: cs => if p c then [(some c, cs)] else []
  | Pat.lit s, prev, rest =>
    match litM s.toList prev rest with
    | none => []
    | some st => [st]
  | Pat.seq a b, prev, rest => ((runPat a prev rest).map (fun st => runPat b st.1 st.2)).flatten
  | Pat.alt a b, prev, rest => runPat a prev rest ++ runPat b prev rest
  | Pat.opt a, prev, rest => (prev, rest) :: runPat a prev rest
  | Pat.star p, prev, rest => starM p prev rest
  | Pat.plus p, _, rest =>
    match rest with
    | [] => []
    | c :: cs => if p c then starM p (some c) cs else []
  | Pat.rep p lo hi, prev, rest => repM p lo hi prev rest

/-- Does the pattern match starting at this or any later position? -/
def testFrom (p : Pat) : Option Char → List Char → Bool
  | prev, [] => !(runPat p prev []).isEmpty
  | prev, c :: rest => !(runPat p prev (c :: rest)).isEmpty || testFrom p (some c) rest

/-- JS `RegExp.prototype.test`: a match exists somewhere in the input. -/
def rtest (p : Pat) (l : List Char) : Bool := testFrom p none l

/-- Sequence a list of patterns. -/
def seqs : List Pat → Pat
  | [] => Pat.eps
  | [p] => p
  | p :: ps => Pat.seq p (seqs ps)

/-- Alternate a list of patterns (left to right, as in the source). -/
def alts : List Pat → Pat
  | [] => Pat.eps
  | [p] => p
  | p :: ps => Pat.alt p (alts ps)

/-- The `\s*` separator. -/
def wsStar : Pat := Pat.star isSpaceChar

/-- Words joined by `\s*`, for phrases written `foo\s*bar` in the source. -/
def wtokList : List String → List Pat
  | [] => []
  | [s] => [Pat.lit s]
  | s :: ss => Pat.lit s :: wsStar :: wtokList ss

/-- Phrase pattern: spaces in `s` stand for `\s*` in the source regex. -/
def wtok (s : String) : Pat := seqs (wtokList ((splitWs s.toList).map String.mk))

/-- Wrap in word boundaries, for the `\b( ... )\b` groups. -/
def bword (p : Pat) : Pat := Pat.seq Pat.wb (Pat.seq p Pat.wb)

/-- An optional word followed by `\s*`, for subpatterns like `(your\s*)?`. -/
def optw (s : String) : Pat := Pat.opt (Pat.seq (Pat.lit s) wsStar)

/-- Character class of `[^\s<>"']` in the link pattern. -/
def classLinkChar (c : Char) : Bool :=
  !(isSpaceChar c || c = '<' || c = '>' || c = '"' || c = '\x27')

/-- Length of the leading run of characters in a class. -/
def takeClassRun (p : Char → Bool) : List Char → Nat
  | [] => 0
  | c :: cs => if p c then 1 + takeClassRun p cs else 0

/-- Length of a match of `https?:\/\/[^\s<>"']+` anchored at the head of
the input, if any (greedy, with the `s?` backtracking JS performs). -/
def linkMatchLen (cs : List Char) : Option Nat :=
  if startsWithL ("https://".toList) cs then
    let run := takeClassRun classLinkChar (cs.drop 8)
    if 0 < run then some (8 + run) else none
  else if startsWithL ("http://".toList) cs then
    let run := takeClassRun classLinkChar (cs.drop 7)
    if 0 < run then some (7 + run) else none
  else none

/-- Count non-overlapping matches, resuming after each match as JS global
matching does; the fuel is the input length (each step consumes at least
one character). -/
def countLinksAux : Nat → List Char → Nat
  | 0, _ => 0
  | _ + 1, [] => 0
  | f + 1, c :: rest =>
    match linkMatchLen (c :: rest) with
    | some n => 1 + countLinksAux f ((c :: rest).drop n)
    | none => countLinksAux f rest

/-- Number of matches of the link pattern (JS `text.match(LINK_PATTERN)`). -/
def countLinks (cs : List Char) : Nat := countLinksAux cs.length cs

/-- URGENCY regex of `safemail.js` (rule group 1). -/
def urgencyPat : Pat :=
  bword (alts
    [Pat.lit "urgent",
     Pat.lit "immediately",
     wtok "action required",
     wtok "final notice",
     wtok "last warning",
     wtok "respond now",
     seqs [Pat.lit "within", wsStar, Pat.alt (Pat.lit "24") (Pat.lit "12"), wsStar, Pat.lit "hours"],
     seqs [Pat.lit "time", Pat.opt (Pat.lit "-"), Pat.lit "sensitive"],
     wtok "expires today",
     Pat.lit "deadline",
     wtok "now or never",
     wtok "failure to comply",
     wtok "limited time",
     wtok "pending suspension",
     Pat.lit "overdue",
     wtok "must be reviewed today",
     wtok "avoid penalties"])

/-- THREATS regex (rule group 2). -/
def threatsPat : Pat :=
  bword (alts
    [seqs [Pat.lit "account", wsStar,
           alts [Pat.lit "suspended", Pat.lit "locked", Pat.lit "closure"]],
     wtok "unauthorized access",
     wtok "suspicious activity",
     wtok "security breach",
     Pat.lit "compromised",
     wtok "unusual activity",
     wtok "violation detected",
     wtok "policy violation",
     wtok "permanent closure",
     seqs [Pat.lit "loss", wsStar, Pat.lit "of", wsStar,
           Pat.alt (Pat.lit "access") (Pat.lit "funds")],
     wtok "legal action",
     wtok "report to authorities",
     wtok "restricted access",
     wtok "frozen funds",
     Pat.lit "penalties"])

/-- AUTHORITY regex (rule group 3), against the lower-cased text. -/
def authorityPat : Pat :=
  bword (alts
    [seqs [Pat.lit "security", wsStar,
           alts [Pat.lit "team", Pat.lit "department", Pat.lit "operations"]],
     wtok "it department",
     wtok "support team",
     Pat.lit "administrator",
     wtok "compliance office",
     wtok "billing department",
     wtok "accounting team",
     Pat.lit "payroll",
     wtok "hr department",
     seqs [Pat.lit "secure", wsStar, Pat.alt (Pat.lit "billing") (Pat.lit "server")],
     wtok "trusted partner"])

/-- CREDENTIALS regex (rule group 4). -/
def credentialsPat : Pat :=
  bword (alts
    [seqs [Pat.lit "verify", wsStar, optw "your",
           alts [Pat.lit "identity", Pat.lit "account", Pat.lit "email"]],
     seqs [Pat.lit "confirm", wsStar, optw "your",
           alts [Pat.lit "account", Pat.lit "password", Pat.lit "email", Pat.lit "payment"]],
     seqs [Pat.lit "re", Pat.opt (Pat.lit "-"), Pat.lit "authenticate"],
     wtok "validate credentials",
     wtok "login required",
     wtok "sign in to continue",
     wtok "update account information",
     wtok "reset required",
     wtok "security verification",
     wtok "authentication failure",
     Pat.lit "password",
     Pat.lit "credentials",
     wtok "social security",
     Pat.lit "ssn",
     wtok "credit card",
     Pat.lit "cvv",
     wtok "email and password"])

/-- CTA regex (rule group 5). -/
def ctaPat : Pat :=
  bword (alts
    [seqs [Pat.lit "click", wsStar,
           alts [Pat.lit "here", seqs [Pat.lit "the", wsStar, Pat.lit "link"], Pat.lit "below"]],
     wtok "tap here",
     seqs [Pat.lit "open", wsStar, optw "the", Pat.lit "attachment"],
     wtok "download now",
     wtok "verify now",
     wtok "confirm now",
     wtok "update now",
     wtok "review immediately",
     wtok "access document",
     wtok "restore access",
     wtok "secure your account",
     wtok "follow the instructions"])

/-- FINANCIAL regex (rule group 6). -/
def financialPat : Pat :=
  bword (alts
    [seqs [Pat.lit "invoice", wsStar,
           Pat.alt (Pat.lit "attached") (seqs [Pat.lit "is", wsStar, Pat.lit "overdue"])],
     seqs [Pat.lit "payment", wsStar,
           alts [Pat.lit "required", Pat.lit "overdue", Pat.lit "pending"]],
     wtok "billing issue",
     wtok "refund pending",
     wtok "charge detected",
     wtok "transaction failed",
     wtok "wire transfer",
     wtok "direct deposit update",
     wtok "tax refund",
     wtok "payroll update",
     wtok "gift cards",
     Pat.lit "cryptocurrency"])

/-- ATTACHMENT regex (rule group 7). -/
def attachmentPat : Pat :=
  bword (alts
    [seqs [Pat.lit "attached", wsStar,
           alts [Pat.lit "document", Pat.lit "invoice", Pat.lit "file"]],
     seqs [Pat.lit "see", wsStar, optw "the", Pat.lit "attachment"],
     seqs [Pat.lit "open", wsStar, optw "the",
           Pat.alt (Pat.lit "attachment") (Pat.lit "file")],
     wtok "secure document",
     wtok "encrypted attachment",
     wtok "enable macros",
     wtok "enable editing",
     wtok "compressed file",
     seqs [Pat.lit "password", Pat.opt (Pat.lit "-"), Pat.lit "protected", wsStar, Pat.lit "file"]])

/-- BAD_EXT regex (rule group 8). -/
def badExtPat : Pat :=
  alts
    [seqs [Pat.lit ".",
           alts [Pat.lit "exe", Pat.lit "scr", Pat.lit "js", Pat.lit "iso", Pat.lit "img",
                 Pat.lit "bat", Pat.lit "cmd", Pat.lit "vbs", Pat.lit "wsf"],
           alts [Pat.cls isSpaceChar, Pat.eos, Pat.cls (fun c => !isWordChar c)]],
     seqs [Pat.lit ".", Pat.alt (Pat.lit "zip") (Pat.lit "rar"), Pat.cls isSpaceChar],
     seqs [Pat.lit "invoice", Pat.star (fun c => c = '_' || isSpaceChar c),
           Pat.plus isDigitChar, Pat.lit ".exe"],
     Pat.lit ".pdf.exe",
     wtok "double extension"]

/-- The standalone `\.exe\b` test (also a gold signal). -/
def exeWbPat : Pat := Pat.seq (Pat.lit ".exe") Pat.wb

/-- SUSPICIOUS_TLD regex (rule group 9, first part). -/
def tldPat : Pat :=
  alts
    [seqs [Pat.lit ".",
           alts [Pat.lit "ru", Pat.lit "tk", Pat.lit "ml", Pat.lit "ga", Pat.lit "cf",
                 Pat.lit "gq", Pat.lit "xyz", Pat.lit "top", Pat.lit "cn"],
           Pat.wb],
     Pat.lit "paypal-alerts",
     Pat.lit "secure-login-verify",
     Pat.lit "company-billing-support",
     Pat.lit "billing-support",
     wtok "account closure",
     seqs [Pat.lit "loss", wsStar, Pat.lit "of", wsStar, Pat.lit "funds"]]

/-- IP_IN_URL regex (case sensitive, run on the original text). -/
def ipPat : Pat :=
  seqs [Pat.lit "http", Pat.opt (Pat.lit "s"), Pat.lit "://",
        Pat.rep isDigitChar 1 3, Pat.lit ".",
        Pat.rep isDigitChar 1 3, Pat.lit ".",
        Pat.rep isDigitChar 1 3, Pat.lit ".",
        Pat.rep isDigitChar 1 3]

/-- SHORTENED regex (link shorteners). -/
def shortPat : Pat :=
  bword (alts [Pat.lit "bit.ly", Pat.lit "tinyurl", Pat.lit "t.co", Pat.lit "goo.gl"])

/-- COMPOSITE regex (rule group 10, high-risk phrase combinations). -/
def compositePat : Pat :=
  alts
    [seqs [Pat.lit "verify", wsStar, optw "your", Pat.lit "account", wsStar, Pat.lit "immediately"],
     wtok "unusual activity detected",
     wtok "failure to respond will result",
     wtok "click below to restore",
     wtok "login required to avoid suspension",
     seqs [Pat.lit "attached", wsStar, Pat.lit "invoice", wsStar, optw "is", Pat.lit "overdue"],
     wtok "confirm your identity to continue",
     wtok "payment is overdue",
     wtok "open the attachment and follow"]

/-- REWARD regex (rule group 11). -/
def rewardPat : Pat :=
  bword (alts
    [seqs [Pat.lit "free", wsStar, alts [Pat.lit "money", Pat.lit "prize", Pat.lit "gift"]],
     Pat.lit "winner",
     Pat.lit "congratulations",
     seqs [Pat.lit "you", wsStar, optw "have", Pat.lit "been", wsStar, Pat.lit "selected"],
     seqs [Pat.lit "claim", wsStar, optw "your", Pat.lit "reward"]])

/-- STRONG_LEGIT regex of the rule engine (literal spaces in the source). -/
def strongLegitPat : Pat :=
  alts
    [seqs [Pat.lit "no further action ", Pat.opt (Pat.lit "is "), Pat.lit "required"],
     seqs [Pat.lit "no action ", Pat.opt (Pat.lit "is "),
           Pat.alt (Pat.lit "needed") (Pat.lit "required")],
     Pat.lit "informational purposes only",
     Pat.lit "no action items required",
     Pat.lit "there are no action items",
     seqs [Pat.lit "details are available ", Pat.alt (Pat.lit "on") (Pat.lit "at")],
     seqs [Pat.lit "you can review account activity ", Pat.opt (Pat.lit "anytime")],
     seqs [Pat.lit "you can access ",
           Pat.alt (Pat.lit "this file")
             (seqs [Pat.lit "your ", Pat.opt (Pat.lit "account "), Pat.lit "settings"])]]

/-- LEGIT_PHRASES regex of the rule engine. -/
def legitPhrasePat : Pat :=
  alts
    [Pat.lit "if this was you",
     Pat.lit "if this wasn\x27t you",
     Pat.lit "you may ignore",
     Pat.lit "ignore this message",
     Pat.lit "no changes required",
     seqs [Pat.opt (Pat.lit "information is "), Pat.lit "already ",
           Pat.alt (Pat.lit "changed") (Pat.lit "correct")],
     Pat.lit "you can retry",
     Pat.lit "at your convenience",
     seqs [Pat.lit "visit your ", Pat.opt (Pat.lit "bank "), Pat.lit "app or website"],
     Pat.lit "visit your website",
     Pat.lit "unless your information is outdated",
     seqs [Pat.lit "you can review ", Pat.opt (Pat.lit "account "), Pat.lit "activity ",
           Pat.opt (Pat.lit "anytime")],
     Pat.lit "sign in through your bank\x27s official website"]

/-- CANONICAL_DOMAIN regex (shared verbatim by the rule engine and the
override stage). -/
def canonicalPat : Pat :=
  alts
    [Pat.lit "account.microsoft.com",
     Pat.lit "account.google.com",
     Pat.lit "login.microsoftonline.com",
     Pat.lit "microsoft.com/",
     Pat.lit "google.com",
     Pat.lit "drive.google.com",
     Pat.lit "docusign.net",
     Pat.lit "chase.com",
     seqs [Pat.lit ".edu", alts [Pat.lit "/", Pat.cls isSpaceChar, Pat.eos]],
     Pat.lit "workday.",
     Pat.lit "it.university.edu"]

/-- Composite gold-signal regex of `hasGoldPhishSignals`. -/
def goldCompositePat : Pat :=
  alts
    [seqs [Pat.lit "verify", wsStar, optw "your",
           Pat.alt (Pat.lit "identity") (Pat.lit "account"), wsStar, Pat.lit "immediately"],
     wtok "failure to respond will result",
     wtok "click below to restore",
     wtok "login required to avoid",
     seqs [Pat.lit "attached", wsStar, Pat.lit "invoice", wsStar, optw "is", Pat.lit "overdue"],
     wtok "open the attachment and follow",
     seqs [Pat.lit "confirm", wsStar, Pat.lit "your", wsStar,
           Pat.alt (Pat.lit "password") (Pat.lit "identity")]]

/-- Strong-anchor regex of `hasLegitDiscriminators` (differs from the rule
engine set: bare `details are available`, no `ignore this message` etc.). -/
def ovrStrongPat : Pat :=
  alts
    [seqs [Pat.lit "no further action ", Pat.opt (Pat.lit "is "), Pat.lit "required"],
     seqs [Pat.lit "no action ", Pat.opt (Pat.lit "is "),
           Pat.alt (Pat.lit "needed") (Pat.lit "required")],
     Pat.lit "informational purposes only",
     Pat.lit "no action items required",
     Pat.lit "there are no action items",
     seqs [Pat.lit "you can review account activity ", Pat.opt (Pat.lit "anytime")],
     seqs [Pat.lit "you can access ",
           Pat.alt (Pat.lit "this file")
             (seqs [Pat.lit "your ", Pat.opt (Pat.lit "account "), Pat.lit "settings"])],
     Pat.lit "details are available"]

/-- Informational-tone regex of `hasLegitDiscriminators`. -/
def ovrPhrasePat : Pat :=
  alts
    [Pat.lit "if this was you",
     Pat.lit "if this wasn\x27t you",
     Pat.lit "you may ignore",
     Pat.lit "no changes required",
     seqs [Pat.lit "already ", Pat.alt (Pat.lit "changed") (Pat.lit "correct")],
     Pat.lit "you can retry",
     Pat.lit "at your convenience",
     seqs [Pat.lit "visit your ", Pat.opt (Pat.lit "bank "), Pat.lit "app or website"],
     Pat.lit "sign in through your bank\x27s official website"]

/-- Rule group 1 fires: urgency and time pressure. -/
def urgencyFires (t : String) : Bool := rtest urgencyPat (lowerChars t)

/-- Rule group 2 fires: threats and consequences. -/
def threatsFires (t : String) : Bool := rtest threatsPat (lowerChars t)

/-- Rule group 3 fires: authority and impersonation. -/
def authorityFires (t : String) : Bool := rtest authorityPat (lowerChars t)

/-- Rule group 4 fires: credential harvesting. -/
def credentialsFires (t : String) : Bool := rtest credentialsPat (lowerChars t)

/-- Rule group 5 fires: call to action. -/
def ctaFires (t : String) : Bool := rtest ctaPat (lowerChars t)

/-- Rule group 6 fires: financial lures. -/
def financialFires (t : String) : Bool := rtest financialPat (lowerChars t)

/-- Rule group 7 fires: attachment and file language. -/
def attachmentFires (t : String) : Bool := rtest attachmentPat (lowerChars t)

/-- Rule group 8 fires: suspicious file extensions (the source tests
`BAD_EXT` on the lower-cased text and, in addition, `/\.exe\b/i` on the
original text; both are case-insensitive over ASCII). -/
def badExtFires (t : String) : Bool :=
  rtest badExtPat (lowerChars t) || rtest exeWbPat (lowerChars t)

/-- Rule group 9a fires: suspicious domain or TLD. -/
def tldFires (t : String) : Bool := rtest tldPat (lowerChars t)

/-- Rule group 9b fires: link to a raw IP address (case-sensitive regex,
run on the original text). -/
def ipFires (t : String) : Bool := rtest ipPat t.toList

/-- Rule group 9c fires: shortened URL. -/
def shortFires (t : String) : Bool := rtest shortPat (lowerChars t)

/-- Rule group 9d fires: more than three links. -/
def linksFires (t : String) : Bool := decide (3 < countLinks (lowerChars t))

/-- Rule group 10 fires: composite high-risk phrases. -/
def compositeFires (t : String) : Bool := rtest compositePat (lowerChars t)

/-- Rule group 11 fires: prize or reward wording. -/
def rewardFires (t : String) : Bool := rtest rewardPat (lowerChars t)

/-- Legitimacy discriminator 1 fires: strong no-action anchor. -/
def strongLegitFires (t : String) : Bool := rtest strongLegitPat (lowerChars t)

/-- Legitimacy discriminator 2 fires: informational tone. -/
def legitPhraseFires (t : String) : Bool := rtest legitPhrasePat (lowerChars t)

/-- Legitimacy discriminator 3 fires: canonical or trusted domain. -/
def canonicalFires (t : String) : Bool := rtest canonicalPat (lowerChars t)

/-- Sum of the phishing-group weights, in the order the source adds them. -/
def rulePosScore (t : String) : ℤ :=
  (if urgencyFires t then 20 else 0) + (if threatsFires t then 25 else 0) +
    (if authorityFires t then 15 else 0) + (if credentialsFires t then 22 else 0) +
    (if ctaFires t then 22 else 0) + (if financialFires t then 20 else 0) +
    (if attachmentFires t then 18 else 0) + (if badExtFires t then 35 else 0) +
    (if tldFires t then 28 else 0) + (if ipFires t then 25 else 0) +
    (if shortFires t then 12 else 0) + (if linksFires t then 10 else 0) +
    (if compositeFires t then 25 else 0) + (if rewardFires t then 18 else 0)

/-- Sum of the legitimacy deductions. -/
def ruleDeduction (t : String) : ℤ :=
  (if strongLegitFires t then 28 else 0) + (if legitPhraseFires t then 14 else 0) +
    (if canonicalFires t then 18 else 0)

/-- Final rule score: `score = Math.max(0, score - legitDeduction)` then
`score = Math.min(100, score)`. -/
def ruleScore (t : String) : ℤ := min 100 (max 0 (rulePosScore t - ruleDeduction t))

/-- Rule-engine prediction: `score >= 52 ? 'Phishing' : 'Safe'`. -/
def rulePrediction (t : String) : String := if 52 ≤ ruleScore t then "Phishing" else "Safe"

/-- Rule-engine confidence: `score/100`, flipped to `1 - score/100` on a
Safe verdict, then rounded to two decimals. -/
def ruleConfidence (t : String) : ℚ :=
  roundTo2 (if 52 ≤ ruleScore t then (ruleScore t : ℚ) / 100 else 1 - (ruleScore t : ℚ) / 100)

/-- Reason strings pushed by the fired phishing groups, in source order. -/
def ruleReasons (t : String) : List String :=
  (if urgencyFires t then ["urgency or time pressure"] else []) ++
    (if threatsFires t then ["threats or consequences"] else []) ++
    (if authorityFires t then ["authority or impersonation language"] else []) ++
    (if credentialsFires t then ["credential or verification request"] else []) ++
    (if ctaFires t then ["call-to-action (click/open/verify)"] else []) ++
    (if financialFires t then ["financial or payment language"] else []) ++
    (if attachmentFires t then ["attachment or file instruction"] else []) ++
    (if badExtFires t then ["suspicious file extension (e.g. .exe)"] else []) ++
    (if tldFires t then ["suspicious domain or TLD"] else []) ++
    (if ipFires t then ["link to an IP address"] else []) ++
    (if shortFires t then ["shortened URL"] else []) ++
    (if linksFires t then ["multiple links"] else []) ++
    (if compositeFires t then ["high-risk phrase combination"] else []) ++
    (if rewardFires t then ["prize or reward wording"] else [])

/-- Reason strings pushed by the fired legitimacy discriminators. -/
def legitReasonsOf (t : String) : List String :=
  (if strongLegitFires t then ["no action required / informational"] else []) ++
    (if legitPhraseFires t then ["informational tone, optional action"] else []) ++
    (if canonicalFires t then ["canonical or trusted domain in link"] else [])

/-- Explanation assembly of `analyzeWithRules`. -/
def ruleExplanation (t : String) : String :=
  if ruleReasons t = [] ∧ legitReasonsOf t = [] then
    "No strong phishing patterns were found."
  else if rulePrediction t = "Safe" ∧ legitReasonsOf t ≠ [] then
    (if ruleReasons t ≠ [] then "Phishing-style signals were present; " else "") ++
      "legit discriminators (e.g. informational tone, trusted domain) reduced the score. " ++
      (if ruleReasons t ≠ [] then
        "Signals: " ++ String.intercalate "; " (ruleReasons t) ++ ". "
      else "") ++
      "Legit: " ++ String.intercalate "; " (legitReasonsOf t) ++
      ". Still verify links and sender when in doubt."
  else
    "Signals detected: " ++ String.intercalate "; " (ruleReasons t) ++ ". " ++
      (if rulePrediction t = "Phishing" then
        "Consider verifying the sender and avoiding links or attachments."
      else "Still verify important requests through official channels.")

/-- Rule engine of `safemail.js` (`analyzeWithRules`). -/
def analyzeWithRules (t : String) : AnalysisResult :=
  { prediction := rulePrediction t
    confidence := ruleConfidence t
    explanation := ruleExplanation t }

/-- Gold phishing signals of `safemail.js` (`hasGoldPhishSignals`): an
executable-style extension, or one of the unambiguous composite phrases. -/
def hasGoldPhishSignals (t : String) : Bool :=
  rtest exeWbPat (lowerChars t) || rtest goldCompositePat (lowerChars t)

/-- Legitimacy discriminators of the override stage
(`hasLegitDiscriminators`): no gold signals, and either the strong anchor
or an informational phrase together with a canonical domain. -/
def hasLegitDiscriminators (t : String) : Bool :=
  !hasGoldPhishSignals t &&
    (rtest ovrStrongPat (lowerChars t) ||
      (rtest ovrPhrasePat (lowerChars t) && rtest canonicalPat (lowerChars t)))

/-- Fixed result for empty input. -/
def noTextResult : AnalysisResult :=
  { prediction := "Safe", confidence := 0
    explanation := "No text provided. Paste email content to analyze." }

/-- Fixed result installed by the legitimacy override. -/
def overrideResult : AnalysisResult :=
  { prediction := "Safe", confidence := 68 / 100
    explanation := "Phishing-style keywords were present, but strong legit framing (e.g. \"no action required\", informational tone) and no high-risk signals indicate a likely safe message. Still verify links and sender when in doubt." }

/-- Scorer stage of `analyzeEmail`: the model result when applicable, else
the rule engine result. -/
def scorerResult (m : Option JSModel) (t : String) : AnalysisResult :=
  (predictWithModel m t).getD (analyzeWithRules t)

/-- Override stage of `analyzeEmail`: replace a Phishing verdict by the
fixed Safe result when the legitimacy discriminators fire. -/
def overrideStage (t : String) (out : AnalysisResult) : AnalysisResult :=
  if out.prediction = "Phishing" ∧ hasLegitDiscriminators t = true then overrideResult else out

/-- Entry point of `safemail.js` (`analyzeEmail`). -/
def analyzeEmail (m : Option JSModel) (emailText : String) : AnalysisResult :=
  let text := jsTrim emailText
  if text = "" then noTextResult
  else overrideStage text (scorerResult m text)

/-- A signal group as data: a fixed weight and a firing test (the
pattern-match against the relevant view of the text). -/
structure SignalGroup where
  weight : ℤ
  fires : String → Bool

/-- The phishing signal-group catalog, in source order. -/
def phishGroups : List SignalGroup :=
  [{ weight := 20, fires := urgencyFires },
   { weight := 25, fires := threatsFires },
   { weight := 15, fires := authorityFires },
   { weight := 22, fires := credentialsFires },
   { weight := 22, fires := ctaFires },
   { weight := 20, fires := financialFires },
   { weight := 18, fires := attachmentFires },
   { weight := 35, fires := badExtFires },
   { weight := 28, fires := tldFires },
   { weight := 25, fires := ipFires },
   { weight := 12, fires := shortFires },
   { weight := 10, fires := linksFires },
   { weight := 25, fires := compositeFires },
   { weight := 18, fires := rewardFires }]

/-- The legitimacy-discriminator catalog, in source order. -/
def legitGroups : List SignalGroup :=
  [{ weight := 28, fires := strongLegitFires },
   { weight := 14, fires := legitPhraseFires },
   { weight := 18, fires := canonicalFires }]

/-- A group contributes its full weight when its pattern matches anywhere
in the text, and zero otherwise. -/
def groupContrib (t : String) (g : SignalGroup) : ℤ :=
  if g.fires t then g.weight else 0

/-- Rounding an integer number of hundredths changes nothing. -/
theorem roundTo2_intDiv (k : ℤ) : roundTo2 ((k : ℚ) / 100) = (k : ℚ) / 100 := by
  unfold roundTo2 jsRound
  have h1 : ((k : ℚ) / 100) * 100 = (k : ℚ) := by
    field_simp
  rw [h1]
  have h2 : ⌊(k : ℚ) + 1 / 2⌋ = k := by
    apply Int.floor_eq_iff.mpr
    refine ⟨by linarith, by norm_num⟩
  rw [h2]

/-- Rounding to two decimals preserves nonnegativity. -/
theorem roundTo2_nonneg (q : ℚ) (h : 0 ≤ q) : 0 ≤ roundTo2 q := by
  unfold roundTo2 jsRound
  have h1 : (0 : ℤ) ≤ ⌊q * 100 + 1 / 2⌋ := Int.floor_nonneg.mpr (by linarith)
  have h2 : (0 : ℚ) ≤ (⌊q * 100 + 1 / 2⌋ : ℚ) := by exact_mod_cast h1
  exact div_nonneg h2 (by norm_num)

/-- Rounding to two decimals preserves the upper bound 1. -/
theorem roundTo2_le_one (q : ℚ) (h : q ≤ 1) : roundTo2 q ≤ 1 := by
  unfold roundTo2 jsRound
  have h1 : ⌊q * 100 + 1 / 2⌋ < 101 := Int.floor_lt.mpr (by push_cast; linarith)
  have h2 : (⌊q * 100 + 1 / 2⌋ : ℚ) ≤ 100 := by exact_mod_cast Int.lt_add_one_iff.mp h1
  linarith

/-- Rounding to two decimals preserves the lower bound 1/2. -/
theorem roundTo2_ge_half (q : ℚ) (h : 1 / 2 ≤ q) : 1 / 2 ≤ roundTo2 q := by
  unfold roundTo2 jsRound
  have h1 : (50 : ℤ) ≤ ⌊q * 100 + 1 / 2⌋ := Int.le_floor.mpr (by push_cast; linarith)
  have h2 : (50 : ℚ) ≤ (⌊q * 100 + 1 / 2⌋ : ℚ) := by exact_mod_cast h1
  linarith

/-- The clamped rule score lies in [0, 100]. -/
theorem ruleScore_bounds (t : String) : 0 ≤ ruleScore t ∧ ruleScore t ≤ 100 := by
  unfold ruleScore
  exact ⟨le_min (by norm_num) (le_max_left 0 _), min_le_left _ _⟩

/-- The rule confidence is exactly the (integer) score over 100, flipped
for a Safe verdict: the rounding is the identity here. -/
theorem ruleConfidence_eq (t : String) :
    ruleConfidence t =
      if 52 ≤ ruleScore t then (ruleScore t : ℚ) / 100 else 1 - (ruleScore t : ℚ) / 100 := by
  unfold ruleConfidence
  split_ifs with h
  · exact roundTo2_intDiv _
  · have he : 1 - (ruleScore t : ℚ) / 100 = ((100 - ruleScore t : ℤ) : ℚ) / 100 := by
      push_cast
      ring
    rw [he, roundTo2_intDiv]

/-- Rule confidence bounds: nonnegative, at most one, and at least 0.49. -/
theorem ruleConfidence_bounds (t : String) :
    0 ≤ ruleConfidence t ∧ ruleConfidence t ≤ 1 ∧ 49 / 100 ≤ ruleConfidence t := by
  obtain ⟨h0, h100⟩ := ruleScore_bounds t
  have hq0 : (0 : ℚ) ≤ (ruleScore t : ℚ) := by exact_mod_cast h0
  have hq100 : (ruleScore t : ℚ) ≤ 100 := by exact_mod_cast h100
  rw [ruleConfidence_eq]
  split_ifs with h
  · have h52 : (52 : ℚ) ≤ (ruleScore t : ℚ) := by exact_mod_cast h
    exact ⟨by linarith, by linarith, by linarith⟩
  · have h51 : (ruleScore t : ℚ) ≤ 51 := by
      exact_mod_cast (by omega : ruleScore t ≤ 51)
    exact ⟨by linarith, by linarith, by linarith⟩

/-- The pre-clamp model confidence is always at least 1/2: it is the
probability mass of the predicted label. -/
theorem mvConfidence0_ge_half (p : ℚ) : 1 / 2 ≤ mvConfidence0 p := by
  unfold mvConfidence0 mvPrediction
  by_cases hp : 1 / 2 ≤ p
  · rw [if_pos hp, if_pos rfl]
    exact hp
  · rw [if_neg hp, if_neg (by decide : ¬("Safe" : String) = "Phishing")]
    push_neg at hp
    linarith

/-- Shape of any model-scorer success result: a two-valued prediction and
a confidence in [1/2, 1]. -/
theorem modelVerdict_props (p : ℚ) :
    ((modelVerdict p).prediction = "Phishing" ∨ (modelVerdict p).prediction = "Safe") ∧
      1 / 2 ≤ (modelVerdict p).confidence ∧ (modelVerdict p).confidence ≤ 1 := by
  refine ⟨?_, ?_, ?_⟩
  · show mvPrediction p = "Phishing" ∨ mvPrediction p = "Safe"
    unfold mvPrediction
    split_ifs
    · exact Or.inl rfl
    · exact Or.inr rfl
  · show 1 / 2 ≤ roundTo2 (max 0 (min 1 (mvConfidence0 p)))
    apply roundTo2_ge_half
    have hm : 1 / 2 ≤ min 1 (mvConfidence0 p) :=
      le_min (by norm_num) (mvConfidence0_ge_half p)
    exact le_trans hm (le_max_right _ _)
  · show roundTo2 (max 0 (min 1 (mvConfidence0 p))) ≤ 1
    apply roundTo2_le_one
    exact max_le (by norm_num) (min_le_left _ _)

/-- Every `some` result of the model scorer is a sigmoid verdict. -/
theorem predictWithModel_some (m : Option JSModel) (t : String) (r : AnalysisResult)
    (h : predictWithModel m t = some r) : ∃ p, r = modelVerdict p := by
  cases m with
  | none => exact absurd h (by simp [predictWithModel])
  | some mm =>
    obtain ⟨vo, co, ic⟩ := mm
    cases vo with
    | none => exact absurd h (by simp [predictWithModel])
    | some v =>
      cases co with
      | none => exact absurd h (by simp [predictWithModel])
      | some c =>
        simp only [predictWithModel] at h
        split_ifs at h
        · exact ⟨_, (Option.some_inj.mp h).symm⟩

/-- Shape of the scorer-stage result: a two-valued prediction and a
confidence in [0.49, 1]. -/
theorem scorerResult_props (m : Option JSModel) (t : String) :
    ((scorerResult m t).prediction = "Phishing" ∨ (scorerResult m t).prediction = "Safe") ∧
      49 / 100 ≤ (scorerResult m t).confidence ∧ (scorerResult m t).confidence ≤ 1 := by
  unfold scorerResult
  cases hp : predictWithModel m t with
  | none =>
    simp only [Option.getD]
    refine ⟨?_, (ruleConfidence_bounds t).2.2, (ruleConfidence_bounds t).2.1⟩
    show rulePrediction t = "Phishing" ∨ rulePrediction t = "Safe"
    unfold rulePrediction
    split_ifs
    · exact Or.inl rfl
    · exact Or.inr rfl
  | some r =>
    obtain ⟨p, rfl⟩ := predictWithModel_some m t r hp
    have h := modelVerdict_props p
    simp only [Option.getD]
    exact ⟨h.1, le_trans (by norm_num) h.2.1, h.2.2⟩

/-- Shape of the final result on nonempty input: a two-valued prediction
and a confidence in [0.49, 1]. -/
theorem analyzeEmail_props (m : Option JSModel) (t : String) (h : jsTrim t ≠ "") :
    ((analyzeEmail m t).prediction = "Phishing" ∨ (analyzeEmail m t).prediction = "Safe") ∧
      49 / 100 ≤ (analyzeEmail m t).confidence ∧ (analyzeEmail m t).confidence ≤ 1 := by
  simp only [analyzeEmail]
  rw [if_neg h]
  unfold overrideStage
  split_ifs with hc
  · exact ⟨Or.inr rfl, by norm_num [overrideResult], by norm_num [overrideResult]⟩
  · exact scorerResult_props m (jsTrim t)

/-- C1: for every model state and every input string, `analyzeEmail`
returns a prediction that is "Phishing" or "Safe" and a confidence in
[0, 1]. -/
theorem safemail_c1 (m : Option JSModel) (t : String) :
    ((analyzeEmail m t).prediction = "Phishing" ∨ (analyzeEmail m t).prediction = "Safe") ∧
      0 ≤ (analyzeEmail m t).confidence ∧ (analyzeEmail m t).confidence ≤ 1 := by
  by_cases h : jsTrim t = ""
  · have he : analyzeEmail m t = noTextResult := by
      simp [analyzeEmail, h]
    rw [he]
    exact ⟨Or.inr rfl, by norm_num [noTextResult], by norm_num [noTextResult]⟩
  · obtain ⟨hp, h49, h1⟩ := analyzeEmail_props m t h
    exact ⟨hp, le_trans (by norm_num) h49, h1⟩

/-- C4: on empty or whitespace-only input, `analyzeEmail` returns the
fixed "no text provided" result (prediction "Safe", confidence 0) for
every model state, so neither scorer influences the outcome. -/
theorem safemail_c4 (m : Option JSModel) (t : String)
    (h : ∀ c ∈ t.toList, isSpaceChar c = true) :
    analyzeEmail m t = noTextResult := by
  have htrim : jsTrim t = "" := by
    unfold jsTrim
    have h1 : t.toList.dropWhile isSpaceChar = [] := by
      rw [List.dropWhile_eq_nil_iff]
      exact h
    rw [h1]
    rfl
  simp [analyzeEmail, htrim]

/-- C4 witness: a whitespace-only input with a loaded model still yields
the fixed empty-input result. -/
theorem safemail_c4_witness :
    analyzeEmail
        (some { vocab := some ["urgent"], coef := some [JNum.num 3], intercept := JNum.num 1 })
        " \t " =
      noTextResult :=
  safemail_c4 _ _ (by decide)

/-- C5: the rule-engine verdict is "Phishing" exactly for clamped scores
of 52 and above and "Safe" exactly for 51 and below, and its confidence is
score/100 for Phishing and 1 - score/100 for Safe. -/
theorem safemail_c5 (t : String) :
    ((analyzeWithRules t).prediction = "Phishing" ↔ 52 ≤ ruleScore t) ∧
      ((analyzeWithRules t).prediction = "Safe" ↔ ruleScore t ≤ 51) ∧
      (analyzeWithRules t).confidence =
        (if 52 ≤ ruleScore t then (ruleScore t : ℚ) / 100 else 1 - (ruleScore t : ℚ) / 100) := by
  refine ⟨?_, ?_, ?_⟩
  · show rulePrediction t = "Phishing" ↔ 52 ≤ ruleScore t
    unfold rulePrediction
    split_ifs with h
    · simp [h]
    · simp [h, (by decide : ¬("Safe" : String) = "Phishing")]
  · show rulePrediction t = "Safe" ↔ ruleScore t ≤ 51
    unfold rulePrediction
    split_ifs with h
    · constructor
      · intro hx
        exact absurd hx (by decide)
      · intro hx
        exact (by omega : False).elim
    · constructor
      · intro _
        omega
      · intro _
        rfl
  · show ruleConfidence t = _
    exact ruleConfidence_eq t

/-- C7: the model scorer declines (returns `none`, triggering the rule
fallback) exactly when the model is absent, a vocabulary or coefficient
field is missing, the intercept is NaN, or the computed linear score is
NaN; in every other case it produces a result. -/
theorem safemail_c7 (m : Option JSModel) (t : String) :
    predictWithModel m t = none ↔
      m = none ∨
        ∃ mm, m = some mm ∧
          (mm.vocab = none ∨ mm.coef = none ∨ mm.intercept.isNaN = true ∨
            ∃ v c, mm.vocab = some v ∧ mm.coef = some c ∧
              (linScore mm.intercept c (countsFor v (tokenize t))).isNaN = true) := by
  cases m with
  | none => simp [predictWithModel]
  | some mm =>
    obtain ⟨vo, co, ic⟩ := mm
    cases vo with
    | none => simp [predictWithModel]
    | some v =>
      cases co with
      | none => simp [predictWithModel]
      | some c =>
        simp only [predictWithModel]
        split_ifs with h1 h2
        · simp [h1]
        · simp [h1, h2]
        · simp [h1, h2]

/-- C8: the stemmer passes tokens shorter than 4 characters through
unchanged and applies at most one suffix rule, trying in order: "ing"
(original length over 5), then "ed" (length over 4), then "ly" (length
over 5); otherwise the token is unchanged. -/
theorem safemail_c8 (cs : List Char) :
    (cs.length < 4 → stemChars cs = cs) ∧
      (5 < cs.length → endsL cs ("ing".toList) = true → stemChars cs = dropLastN cs 3) ∧
      (¬(5 < cs.length ∧ endsL cs ("ing".toList) = true) → 4 < cs.length →
        endsL cs ("ed".toList) = true → stemChars cs = dropLastN cs 2) ∧
      (¬(5 < cs.length ∧ endsL cs ("ing".toList) = true) →
        ¬(4 < cs.length ∧ endsL cs ("ed".toList) = true) → 5 < cs.length →
        endsL cs ("ly".toList) = true → stemChars cs = dropLastN cs 2) ∧
      (¬(5 < cs.length ∧ endsL cs ("ing".toList) = true) →
        ¬(4 < cs.length ∧ endsL cs ("ed".toList) = true) →
        ¬(5 < cs.length ∧ endsL cs ("ly".toList) = true) → stemChars cs = cs) := by
  refine ⟨?_, ?_, ?_, ?_, ?_⟩
  · intro h
    unfold stemChars
    rw [if_pos h]
  · intro h5 hing
    unfold stemChars
    rw [if_neg (by omega), if_pos ⟨h5, hing⟩]
  · intro hn h4 hed
    unfold stemChars
    rw [if_neg (by omega), if_neg hn, if_pos ⟨h4, hed⟩]
  · intro hn1 hn2 h5 hly
    unfold stemChars
    rw [if_neg (by omega), if_neg hn1, if_neg hn2, if_pos ⟨h5, hly⟩]
  · intro hn1 hn2 hn3
    unfold stemChars
    by_cases h4 : cs.length < 4
    · rw [if_pos h4]
    · rw [if_neg h4, if_neg hn1, if_neg hn2, if_neg hn3]

/-- C8 witness: the stemmer at concrete tokens, through the theorem. -/
theorem safemail_c8_witness :
    stemChars ("clicking".toList) = ("click".toList) ∧ stemChars ("it".toList) = ("it".toList) := by
  constructor
  · have h := (safemail_c8 ("clicking".toList)).2.1 (by decide) (by decide)
    rw [h]
    decide
  · exact (safemail_c8 ("it".toList)).1 (by decide)

/-- C10: on input whose trimmed text is nonempty, the returned confidence
is at least 0.49 for every model state; the empty-input short-circuit is
the only way to a confidence below 0.49, and it returns exactly 0. -/
theorem safemail_c10 (m : Option JSModel) (t : String) :
    (jsTrim t ≠ "" → 49 / 100 ≤ (analyzeEmail m t).confidence) ∧
      (jsTrim t = "" → (analyzeEmail m t).confidence = 0) := by
  constructor
  · intro h
    exact (analyzeEmail_props m t h).2.1
  · intro h
    simp [analyzeEmail, h, noTextResult]

/-- C10 witness: a concrete nonempty input. -/
theorem safemail_c10_witness : 49 / 100 ≤ (analyzeEmail none "hello").confidence :=
  (safemail_c10 none "hello").1 (by decide)

/-- C2: when the (trimmed) input matches the executable-extension gold
signal, the override never fires: the final result is exactly the scorer
stage result, whatever legitimacy phrasing is also present.  (Trimming
only removes edge whitespace, so it cannot create or destroy an
occurrence of the all-non-whitespace gold signal.) -/
theorem safemail_c2 (m : Option JSModel) (t : String)
    (h : rtest exeWbPat (lowerChars (jsTrim t)) = true) :
    analyzeEmail m t = scorerResult m (jsTrim t) := by
  have hne : jsTrim t ≠ "" := by
    intro he
    rw [he] at h
    exact absurd h (by decide)
  have hgold : hasGoldPhishSignals (jsTrim t) = true := by
    unfold hasGoldPhishSignals
    rw [h]
    rfl
  have hleg : hasLegitDiscriminators (jsTrim t) = false := by
    unfold hasLegitDiscriminators
    rw [hgold]
    rfl
  simp only [analyzeEmail]
  rw [if_neg hne]
  unfold overrideStage
  rw [if_neg]
  intro hc
  rw [hleg] at hc
  exact absurd hc.2 (by decide)

/-- C2 witness: an input carrying both `invoice.exe` and legitimacy
phrasing still yields the scorer-stage result. -/
theorem safemail_c2_witness :
    analyzeEmail none "Please open invoice.exe now. No action is required." =
      scorerResult none (jsTrim "Please open invoice.exe now. No action is required.") :=
  safemail_c2 none _ (by decide)

/-- The phrase of the override anchor, lower-cased. -/
def nfarPhrase : List Char := "no further action is required".toList

/-- A successful prefix test exposes the needle as a list prefix. -/
theorem startsWithL_append (n : List Char) :
    ∀ l, startsWithL n l = true → ∃ post, l = n ++ post := by
  induction n with
  | nil => exact fun l _ => ⟨l, rfl⟩
  | cons c cs ih =>
    intro l h
    cases l with
    | nil => exact absurd h (by simp [startsWithL])
    | cons d ds =>
      simp only [startsWithL, Bool.and_eq_true, decide_eq_true_eq] at h
      obtain ⟨post, hp⟩ := ih ds h.2
      exact ⟨post, by rw [h.1, hp]; rfl⟩

/-- A literal consumes itself from the front of the input. -/
theorem litM_self (cs : List Char) :
    ∀ (prev : Option Char) (post : List Char), ∃ pv, litM cs prev (cs ++ post) = some (pv, post) := by
  induction cs with
  | nil => exact fun prev post => ⟨prev, rfl⟩
  | cons c cs ih =>
    intro prev post
    simpa [litM] using ih (some c) post

/-- A literal pattern matches at the front of `s.toList ++ post`. -/
theorem mem_runPat_lit (s : String) (prev : Option Char) (post : List Char) :
    ∃ pv, (pv, post) ∈ runPat (Pat.lit s) prev (s.toList ++ post) := by
  obtain ⟨pv, h⟩ := litM_self s.toList prev post
  refine ⟨pv, ?_⟩
  show (pv, post) ∈
    (match litM s.toList prev (s.toList ++ post) with
     | none => []
     | some st => [st])
  rw [h]
  exact List.mem_singleton.mpr rfl

/-- Chaining matches through a sequence pattern. -/
theorem mem_runPat_seq {a b : Pat} {prev : Option Char} {rest : List Char}
    {st st' : Option Char × List Char}
    (ha : st ∈ runPat a prev rest) (hb : st' ∈ runPat b st.1 st.2) :
    st' ∈ runPat (Pat.seq a b) prev rest := by
  simp only [runPat, List.mem_flatten, List.mem_map]
  exact ⟨runPat b st.1 st.2, ⟨st, ha, rfl⟩, hb⟩

/-- An inner match is also a match of the optional pattern. -/
theorem mem_runPat_opt {a : Pat} {prev : Option Char} {rest : List Char}
    {st : Option Char × List Char} (h : st ∈ runPat a prev rest) :
    st ∈ runPat (Pat.opt a) prev rest :=
  List.mem_cons_of_mem _ h

/-- Wherever the override-anchor phrase starts, the strong-legit pattern
of `hasLegitDiscriminators` matches (through its first alternative, with
the optional `is ` taken). -/
theorem runPat_nfar (prev : Option Char) (l : List Char)
    (h : startsWithL nfarPhrase l = true) : runPat ovrStrongPat prev l ≠ [] := by
  obtain ⟨post, rfl⟩ := startsWithL_append nfarPhrase l h
  have hL : nfarPhrase ++ post =
      ("no further action ".toList) ++ (("is ".toList) ++ (("required".toList) ++ post)) := by
    have hsplit : nfarPhrase =
        ("no further action ".toList) ++ (("is ".toList) ++ ("required".toList)) := by decide
    rw [hsplit, List.append_assoc, List.append_assoc]
  rw [hL]
  obtain ⟨pv1, h1⟩ :=
    mem_runPat_lit "no further action " prev (("is ".toList) ++ (("required".toList) ++ post))
  obtain ⟨pv2, h2⟩ := mem_runPat_lit "is " pv1 (("required".toList) ++ post)
  obtain ⟨pv3, h3⟩ := mem_runPat_lit "required" pv2 post
  have hseq2 :
      (pv3, post) ∈
        runPat (Pat.seq (Pat.opt (Pat.lit "is ")) (Pat.lit "required")) pv1
          (("is ".toList) ++ (("required".toList) ++ post)) :=
    mem_runPat_seq (mem_runPat_opt h2) h3
  have hseq1 :
      (pv3, post) ∈
        runPat
          (Pat.seq (Pat.lit "no further action ")
            (Pat.seq (Pat.opt (Pat.lit "is ")) (Pat.lit "required"))) prev
          (("no further action ".toList) ++ (("is ".toList) ++ (("required".toList) ++ post))) :=
    mem_runPat_seq h1 hseq2
  exact List.ne_nil_of_mem (List.mem_append_left _ hseq1)

/-- A substring occurrence turns into a positive test, given that the
pattern matches wherever the needle starts. -/
theorem testFrom_of_key (p : Pat) (needle : List Char)
    (key : ∀ prev l, startsWithL needle l = true → runPat p prev l ≠ []) :
    ∀ prev l, containsSub needle l = true → testFrom p prev l = true := by
  intro prev l
  induction l generalizing prev with
  | nil =>
    intro h
    have hk := key prev [] (by simpa [containsSub] using h)
    rw [testFrom]
    cases hr : runPat p prev [] with
    | nil => exact absurd hr hk
    | cons a as => simp [hr]
  | cons c rest ih =>
    intro h
    rw [testFrom]
    rw [containsSub, Bool.or_eq_true] at h
    cases h with
    | inl h1 =>
      cases hr : runPat p prev (c :: rest) with
      | nil => exact absurd hr (key prev (c :: rest) h1)
      | cons a as => simp [hr]
    | inr h2 =>
      rw [ih (some c) h2]
      simp

/-- C3: (a) on model-less input containing the phrase "no further action
is required", with no gold signals and a Phishing rule verdict, the final
result is exactly the fixed override (prediction "Safe", confidence 0.68,
fixed explanation); (b) the override stage returns any result whose
prediction is "Safe" unchanged. -/
theorem safemail_c3 :
    (∀ t : String,
        containsSub nfarPhrase (lowerChars (jsTrim t)) = true →
        hasGoldPhishSignals (jsTrim t) = false →
        (analyzeWithRules (jsTrim t)).prediction = "Phishing" →
        analyzeEmail none t = overrideResult) ∧
      (∀ (t : String) (out : AnalysisResult),
        out.prediction = "Safe" → overrideStage t out = out) := by
  constructor
  · intro t hsub hgold hpred
    have hne : jsTrim t ≠ "" := by
      intro he
      rw [he] at hsub
      exact absurd hsub (by decide)
    have hstrong : rtest ovrStrongPat (lowerChars (jsTrim t)) = true :=
      testFrom_of_key ovrStrongPat nfarPhrase runPat_nfar none _ hsub
    have hleg : hasLegitDiscriminators (jsTrim t) = true := by
      unfold hasLegitDiscriminators
      rw [hgold, hstrong]
      rfl
    simp only [analyzeEmail]
    rw [if_neg hne]
    unfold overrideStage
    rw [if_pos]
    exact ⟨hpred, hleg⟩
  · intro t out hsafe
    unfold overrideStage
    rw [if_neg]
    intro hc
    rw [hsafe] at hc
    exact absurd hc.1 (by decide)

set_option maxRecDepth 100000 in
set_option maxHeartbeats 2000000 in
/-- C3 witness: a concrete strongly-phishing text carrying the override
anchor is softened to the fixed override result, and a Safe result passes
the override stage unchanged. -/
theorem safemail_c3_witness :
    analyzeEmail none
        "Urgent: your account suspended due to unauthorized access. The security team needs you to verify your identity. No further action is required." =
        overrideResult ∧
      overrideStage "x" { prediction := "Safe", confidence := 1 / 2, explanation := "e" } =
        { prediction := "Safe", confidence := 1 / 2, explanation := "e" } :=
  ⟨safemail_c3.1 _ (by decide) (by decide) (by decide), safemail_c3.2 "x" _ rfl⟩

/-- C6: the rule score is the clamp to [0, 100] of the unordered sum of
full group weights (each group contributing its weight exactly once when
its test fires, zero otherwise) minus the legitimacy deductions; the sum
is invariant under permutation of the catalog. -/
theorem safemail_c6 (t : String) :
    ruleScore t =
        min 100 (max 0
          ((phishGroups.map (groupContrib t)).sum - (legitGroups.map (groupContrib t)).sum)) ∧
      (∀ g ∈ phishGroups ++ legitGroups,
        groupContrib t g = g.weight ∨ groupContrib t g = 0) ∧
      (∀ l : List SignalGroup, l.Perm phishGroups →
        (l.map (groupContrib t)).sum = (phishGroups.map (groupContrib t)).sum) := by
  refine ⟨?_, ?_, ?_⟩
  · have hA : rulePosScore t = (phishGroups.map (groupContrib t)).sum := by
      simp only [phishGroups, groupContrib, List.map_cons, List.map_nil, List.sum_cons,
        List.sum_nil, rulePosScore]
      ring
    have hB : ruleDeduction t = (legitGroups.map (groupContrib t)).sum := by
      simp only [legitGroups, groupContrib, List.map_cons, List.map_nil, List.sum_cons,
        List.sum_nil, ruleDeduction]
      ring
    rw [ruleScore, hA, hB]
  · intro g _
    unfold groupContrib
    split_ifs
    · exact Or.inl rfl
    · exact Or.inr rfl
  · intro l hl
    exact (hl.map (groupContrib t)).sum_eq

/-- C6 witness: the clamp equation at a concrete text, and the sum over
the reversed catalog (a concrete permutation) agrees. -/
theorem safemail_c6_witness :
    ruleScore "win a free prize" =
        min 100 (max 0
          ((phishGroups.map (groupContrib "win a free prize")).sum -
            (legitGroups.map (groupContrib "win a free prize")).sum)) ∧
      (phishGroups.reverse.map (groupContrib "win a free prize")).sum =
        (phishGroups.map (groupContrib "win a free prize")).sum :=
  ⟨(safemail_c6 "win a free prize").1,
   (safemail_c6 "win a free prize").2.2 phishGroups.reverse (List.reverse_perm phishGroups)⟩

/-- The example input of the specification (section 8). -/
def c9Text : String :=
  "Your account has been suspended. Click here immediately to verify your identity."

set_option maxRecDepth 100000 in
set_option maxHeartbeats 2000000 in
/-- C9 counterexample: on the example input the THREATS group does not
fire — its patterns require "account" immediately adjacent (up to
whitespace) to "suspended", and the text reads "account has been
suspended" — refuting the claimed urgency+threats+credential+CTA set. -/
theorem safemail_c9_cex : threatsFires c9Text = false := by decide

set_option maxRecDepth 100000 in
set_option maxHeartbeats 2000000 in
/-- C9 as amended: with no model, the example input is classified
Phishing with confidence 0.64 (> 0.5); urgency, credential and
call-to-action fire, the threats group does not, and no legitimacy
deduction applies. -/
theorem safemail_c9 :
    (analyzeEmail none c9Text).prediction = "Phishing" ∧
      (analyzeEmail none c9Text).confidence = 64 / 100 ∧
      1 / 2 < (analyzeEmail none c9Text).confidence ∧
      urgencyFires c9Text = true ∧ credentialsFires c9Text = true ∧ ctaFires c9Text = true ∧
      threatsFires c9Text = false ∧ ruleDeduction c9Text = 0 := by
  have hne : jsTrim c9Text ≠ "" := by decide
  have hleg : hasLegitDiscriminators (jsTrim c9Text) = false := by decide
  have hs : ruleScore (jsTrim c9Text) = 64 := by decide
  have hres : analyzeEmail none c9Text = analyzeWithRules (jsTrim c9Text) := by
    simp only [analyzeEmail]
    rw [if_neg hne]
    unfold overrideStage
    rw [if_neg]
    · rfl
    · intro hc
      rw [hleg] at hc
      exact absurd hc.2 (by decide)
  have hconf : (analyzeEmail none c9Text).confidence = 64 / 100 := by
    rw [hres]
    show ruleConfidence (jsTrim c9Text) = 64 / 100
    rw [ruleConfidence_eq, hs]
    norm_num
  refine ⟨?_, hconf, ?_, by decide, by decide, by decide, by decide, by decide⟩
  · rw [hres]
    show rulePrediction (jsTrim c9Text) = "Phishing"
    unfold rulePrediction
    rw [hs, if_pos (by norm_num : (52 : ℤ) ≤ 64)]
  · rw [hconf]
    norm_num
